import Mathlib

/-! Verification development for the VoiceSentinel fraud-detection backend.

The definitions below are a shallow embedding of the pipeline: the PCM
decoder (`parseWAV`), the quality scorer (`analyzeQuality`), the artifact
detector (`detectArtifacts`), the fraud-risk scorer (`calculateFraudRisk`),
the two risk engines (`calculateRisk` for heuristic inputs and
`calculateScore` for feature vectors), the session monitor
(`pushScore`, `calculateTrend`, `checkAlert`) and the streaming message
handler (`handleMsg`). JavaScript floating-point numbers are modelled as
exact rationals; JavaScript truthiness on a number is modelled as being
nonzero. -/

/- ### PCM decoder -/

/-- Signed 16-bit little-endian read at byte offset i, as DataView.getInt16
with littleEndian true. The source loop only reads in-range offsets, so the
default 0 for an out-of-range byte is never exercised. -/
def int16At (bytes : List Nat) (i : Nat) : Int :=
  let v : Nat := bytes.getD (i + 1) 0 * 256 + bytes.getD i 0
  if v < 32768 then (v : Int) else (v : Int) - 65536

/-- First offset of the 4-byte tag 0x64 0x61 0x74 0x61 in the buffer.
The source scans offsets 0 .. length-5 (loop guard i < byteLength - 4) and
stops at the first match. -/
def findData (bytes : List Nat) : Option Nat :=
  (List.range (bytes.length - 4)).find? fun i =>
    bytes.getD i 0 == 0x64 && bytes.getD (i + 1) 0 == 0x61 &&
    bytes.getD (i + 2) 0 == 0x74 && bytes.getD (i + 3) 0 == 0x61

/-- PCM samples decoded from byte offset start: the source loop visits
offsets start, start + 2, ... while the offset is below length - 1, pushing
getInt16 / 32768 each time. The loop is reindexed as a map over its
iteration count, which is the number of j with start + 2j < length - 1. -/
def pcmSamples (bytes : List Nat) (start : Nat) : List ℚ :=
  (List.range ((bytes.length - 1 - start + 1) / 2)).map fun j =>
    (int16At bytes (start + 2 * j) : ℚ) / 32768

/-- parseWAV: when the data tag is found at offset i, samples start at
i + 8; when it is never found, dataStart keeps its initial value 0 and the
whole buffer is decoded as PCM. -/
def parseWAV (bytes : List Nat) : List ℚ :=
  pcmSamples bytes (match findData bytes with | some i => i + 8 | none => 0)

/- ### Feature vector and feature extraction guard -/

/-- The feature record produced by extractFeatures, one rational per field. -/
structure FeatureVector where
  duration : ℚ := 0
  rms_mean : ℚ := 0
  rms_std : ℚ := 0
  rms_max : ℚ := 0
  zcr_mean : ℚ := 0
  zcr_std : ℚ := 0
  spec_centroid_mean : ℚ := 0
  spec_rolloff_mean : ℚ := 0
  spec_entropy : ℚ := 0
  mfcc_mean : ℚ := 0
  mfcc_std : ℚ := 0
  tempo : ℚ := 0
  pitch_stability : ℚ := 0
  loudness_variance : ℚ := 0
deriving DecidableEq, Repr

/-- Guard of extractFeatures: the source returns null for a missing or
empty sample list before computing anything. The numeric body (RMS, FFT,
autocorrelation pitch, which use square roots and trigonometric functions)
is abstracted as the body parameter; it runs only after the guard passes, so
no FeatureVector is ever produced from an empty sample list. -/
def extractFeatures (body : List ℚ → FeatureVector) (audioData : List ℚ) :
    Option FeatureVector :=
  if audioData.length = 0 then none else some (body audioData)

/-- The window that calculateSpectral passes to the recursive transform:
audioData.slice(0, min(2048, length)), with no further truncation. -/
def spectralWindow (audioData : List ℚ) : List ℚ :=
  audioData.take (min 2048 audioData.length)

/- ### Quality scorer, artifact detector, fraud risk -/

/-- JavaScript chained comparison a < x < b as it actually evaluates:
(a < x) is a boolean, coerced to 1 or 0, which is then compared with b.
The source quality checks use this form twice. -/
def jsChainedLt (a x b : ℚ) : Bool :=
  decide ((if a < x then (1 : ℚ) else 0) < b)

/-- Result record of analyzeQuality. -/
structure QualityResult where
  quality_score : ℚ
  has_voice : Bool
  natural_speech : Bool
  good_frequency : Bool
  consistent_pitch : Bool
  natural_duration : Bool
deriving DecidableEq, Repr

/-- analyzeQuality: 20 points per check. The score conditions for ZCR and
duration are the source's chained comparisons, while the returned booleans
use the correctly conjoined conditions, exactly as in the source. -/
def analyzeQuality (features : FeatureVector) : QualityResult :=
  let q1 : ℚ := if features.rms_mean > 0.05 then 20 else 0
  let q2 : ℚ := if jsChainedLt 0.15 features.zcr_mean 0.5 then 20 else 0
  let q3 : ℚ := if features.spec_rolloff_mean > 0.3 then 20 else 0
  let q4 : ℚ := if features.pitch_stability > 0.5 then 20 else 0
  let q5 : ℚ := if jsChainedLt 1 features.duration 30 then 20 else 0
  { quality_score := q1 + q2 + q3 + q4 + q5
    has_voice := decide (features.rms_mean > 0.05)
    natural_speech := decide (0.15 < features.zcr_mean ∧ features.zcr_mean < 0.5)
    good_frequency := decide (features.spec_rolloff_mean > 0.3)
    consistent_pitch := decide (features.pitch_stability > 0.5)
    natural_duration := decide (1 < features.duration ∧ features.duration < 30) }

/-- The artifact flags of detectArtifacts. -/
structure ArtifactSet where
  robotic_voice : Bool
  heavy_background : Bool
  clipping : Bool
  fake_audio : Bool
  echo_present : Bool
deriving DecidableEq, Repr

/-- Result record of detectArtifacts. -/
structure ArtifactResult where
  artifacts : ArtifactSet
  artifact_count : Nat
  artifact_score : ℚ
deriving DecidableEq, Repr

/-- detectArtifacts: fixed-threshold flags, count of true flags, and
score = min(100, count * 25). -/
def detectArtifacts (f : FeatureVector) : ArtifactResult :=
  let a : ArtifactSet :=
    { robotic_voice := decide (f.rms_std < 0.01)
      heavy_background := decide (f.zcr_mean > 0.6)
      clipping := decide (f.rms_max > 0.9)
      fake_audio := decide (f.mfcc_std < 0.05 ∨ f.mfcc_std > 50)
      echo_present := decide (|f.spec_centroid_mean - f.spec_rolloff_mean| > 0.3) }
  let count : Nat :=
    [a.robotic_voice, a.heavy_background, a.clipping, a.fake_audio,
      a.echo_present].count true
  { artifacts := a, artifact_count := count,
    artifact_score := min 100 ((count : ℚ) * 25) }

/-- calculateFraudRisk: 50 for a null feature record; otherwise a baseline
of 50 plus the quality penalty, artifact score, consistency penalty and
speech-rate penalty, clamped by min(100, max(0, riskScore)). -/
def calculateFraudRisk (features : Option FeatureVector) : ℚ :=
  match features with
  | none => 50
  | some f =>
    let quality := analyzeQuality f
    let artifactsR := detectArtifacts f
    let riskScore : ℚ := 50
      + (if quality.quality_score < 40 then 15 else 0)
      + artifactsR.artifact_score
      + (if f.rms_std < 0.01 then 20 else 0)
      + (if f.tempo > 300 then 15 else 0)
    min 100 (max 0 riskScore)

/- ### Heuristic-input risk engine (calculateRisk) -/

/-- Intent tiers of IntentRisk. -/
inductive IntentRisk | low | medium | high
deriving DecidableEq, Repr

/-- Verdict tiers of AuthAction. -/
inductive AuthAction | FAST_LANE | COGNITIVE_TEST | BLOCK_IMMEDIATE
deriving DecidableEq, Repr

/-- The RiskInputs record consumed by calculateRisk. -/
structure RiskInputs where
  latency : ℚ := 0
  pauseStd : ℚ := 0
  fillerCount : ℚ := 0
  wpm : ℚ := 0
  pitchMean : ℚ := 0
  pitchVar : ℚ := 0
  noiseDb : ℚ := 0
  isLooping : Bool := false
  zcr : ℚ := 0
  intent : IntentRisk := IntentRisk.medium
deriving DecidableEq, Repr

/-- The intent multipliers from the engine constructor. -/
def intentMult : IntentRisk → ℚ
  | IntentRisk.low => 1.0
  | IntentRisk.medium => 1.4
  | IntentRisk.high => 1.8

/-- Cognitive component: filler-count, pause-std and latency contributions,
clamped to 100. -/
def cogScore (i : RiskInputs) : ℚ :=
  min ((if i.fillerCount = 0 then 40
        else if i.fillerCount < 2 then 15
        else if i.fillerCount > 4 then 20 else 0)
      + (if i.pauseStd < 0.08 then 30
         else if i.pauseStd > 0.3 then 10 else 0)
      + (if i.latency > 500 then 20 else 0)) 100

/-- Behavioral component: pitch-variance and words-per-minute contributions,
clamped to 100. -/
def behScore (i : RiskInputs) : ℚ :=
  min ((if i.pitchVar > 600 then 45
        else if i.pitchVar > 400 then 25
        else if i.pitchVar > 200 then 10 else 0)
      + (if i.wpm > 180 then 35
         else if i.wpm > 160 then 15
         else if i.wpm < 100 then 15 else 0)) 100

/-- Environmental component: noise-dB and zero-crossing contributions,
clamped to 100. -/
def envScore (i : RiskInputs) : ℚ :=
  min ((if i.noiseDb < -65 then 40
        else if i.noiseDb < -55 then 15
        else if i.noiseDb > -45 then 20 else 0)
      + (if i.zcr < 0.03 then 25
         else if i.zcr > 0.08 then 15 else 0)) 100

/-- Weighted aggregation of the three components. -/
def rawRisk (i : RiskInputs) : ℚ :=
  cogScore i * 0.30 + behScore i * 0.40 + envScore i * 0.30

/-- Final score: min(rawRisk * intent multiplier, 100). -/
def finalScore (i : RiskInputs) : ℚ :=
  min (rawRisk i * intentMult i.intent) 100

/-- Confidence before percentage conversion: 0.90 minus the two optional
penalties, floored at 0.60. -/
def confidenceFrac (i : RiskInputs) : ℚ :=
  max (0.90 - (if i.noiseDb < -50 then 0.15 else 0)
            - (if i.pitchVar > 500 then 0.10 else 0)) 0.60

/-- Verdict from the final score. -/
def riskAction (i : RiskInputs) : AuthAction :=
  if finalScore i < 30 then AuthAction.FAST_LANE
  else if finalScore i < 70 then AuthAction.COGNITIVE_TEST
  else AuthAction.BLOCK_IMMEDIATE

/-- Result record of calculateRisk, with the components flattened. -/
structure RiskResult where
  score : ℚ
  confidence : ℚ
  action : AuthAction
  cognitive : ℚ
  behavioral : ℚ
  environmental : ℚ
deriving DecidableEq, Repr

/-- calculateRisk: the returned record, with Math.round(x * 100) / 100 on
the score and components and Math.round(x * 100 * 10) / 10 on the
confidence percentage. -/
def calculateRisk (i : RiskInputs) : RiskResult :=
  { score := (round (finalScore i * 100) : ℚ) / 100
    confidence := (round (confidenceFrac i * 100 * 10) : ℚ) / 10
    action := riskAction i
    cognitive := (round (cogScore i * 100) : ℚ) / 100
    behavioral := (round (behScore i * 100) : ℚ) / 100
    environmental := (round (envScore i * 100) : ℚ) / 100 }

/- ### Feature-vector risk engine (calculateScore) -/

/-- The feature fields read by calculateScore. -/
structure ScoreFeatures where
  rms_mean : ℚ := 0
  zcr_mean : ℚ := 0
  spec_centroid_mean : ℚ := 0
  spec_rolloff_mean : ℚ := 0
  tempo : ℚ := 0
  pitch_var : ℚ := 0
deriving DecidableEq, Repr

/-- The artifact flags read by calculateScore. -/
structure ArtifactFlags where
  robotic_voice : Bool := false
  fake_audio : Bool := false
  clipping : Bool := false
  background_noise : Bool := false
  echo : Bool := false
deriving DecidableEq, Repr

/-- The analysis object consumed by calculateScore. -/
structure ScoreAnalysis where
  features : ScoreFeatures
  artifacts : Option ArtifactFlags := none
  fraud_risk : ℚ := 0
deriving DecidableEq, Repr

/-- calculateScore: deviation-based sub-scores plus artifact penalties plus
10 percent of the fraud-risk scalar, clamped by min(100, max(0, score)).
A null analysis falls back to Math.random() * 30; the random draw is the
rand parameter. JavaScript truthiness of pitch_var and fraud_risk is
modelled as being nonzero. -/
def calculateScore (analysis : Option ScoreAnalysis) (rand : ℚ) : ℚ :=
  match analysis with
  | none => rand * 30
  | some a =>
    let f := a.features
    let rmsRisk := min 20 (|f.rms_mean - 0.15| * 100)
    let zcrDev := |f.zcr_mean - 0.05|
    let zcrRisk : ℚ := if zcrDev > 0.1 then 20 else if zcrDev > 0.05 then 10 else 0
    let specRisk : ℚ :=
      if f.spec_centroid_mean < 800 then 15
      else if f.spec_centroid_mean > 3500 then 10 else 0
    let rolloffRisk := min 10 (|f.spec_rolloff_mean - 3500| / 500)
    let tempoRisk : ℚ :=
      if f.tempo < 80 then 15
      else if f.tempo > 200 then 15
      else if f.tempo < 100 ∨ f.tempo > 180 then 8 else 0
    let pitchRisk : ℚ := if f.pitch_var ≠ 0 then min 15 (f.pitch_var / 40) else 0
    let artRisk : ℚ :=
      match a.artifacts with
      | none => 0
      | some art =>
        (if art.robotic_voice then 20 else 0) + (if art.fake_audio then 25 else 0)
        + (if art.clipping then 15 else 0) + (if art.background_noise then 10 else 0)
        + (if art.echo then 8 else 0)
    let fraudAdd : ℚ :=
      if a.fraud_risk ≠ 0 ∧ a.fraud_risk < 100 then a.fraud_risk * 0.1 else 0
    min 100 (max 0 (rmsRisk + zcrRisk + specRisk + rolloffRisk + tempoRisk
      + pitchRisk + artRisk + fraudAdd))

/- ### Session monitor -/

/-- Trend values of calculateTrend. -/
inductive Trend | INCREASING | DECREASING | STABLE
deriving DecidableEq, Repr

/-- Alert severities of checkAlert. -/
inductive Severity | CRITICAL | HIGH | MEDIUM
deriving DecidableEq, Repr

/-- History update of checkAlert: push the new score, then shift the oldest
entry when the history exceeds 10 entries. An entry is represented by its
score; the paired timestamp is never read by the monitor logic. -/
def pushScore (hist : List ℚ) (score : ℚ) : List ℚ :=
  let h := hist ++ [score]
  if h.length > 10 then h.tail else h

/-- calculateTrend: STABLE below 2 entries; otherwise compare the mean of
slice(-5) against the mean of slice(-10,-5), the latter defaulting to the
former when empty. -/
def calculateTrend (recentScores : List ℚ) : Trend :=
  if recentScores.length < 2 then Trend.STABLE
  else
    let recent := recentScores.drop (recentScores.length - 5)
    let avg := recent.sum / (recent.length : ℚ)
    let previous := (recentScores.take (recentScores.length - 5)).drop
      (recentScores.length - 10)
    let prevAvg := if previous.length > 0
      then previous.sum / (previous.length : ℚ) else avg
    if avg > prevAvg + 5 then Trend.INCREASING
    else if avg < prevAvg - 5 then Trend.DECREASING
    else Trend.STABLE

/-- Alert record of checkAlert. -/
structure AlertInfo where
  isAlert : Bool
  severity : Severity
  trend : Trend
deriving DecidableEq, Repr

/-- checkAlert: append the score (threshold 70 from the constructor), then
classify severity and compute the trend on the updated history. -/
def checkAlert (hist : List ℚ) (score : ℚ) : List ℚ × AlertInfo :=
  let h := pushScore hist score
  (h, { isAlert := decide (score > 70)
        severity := if score > 85 then Severity.CRITICAL
          else if score > 70 then Severity.HIGH else Severity.MEDIUM
        trend := calculateTrend h })

/-- Mean of a list of scores, as the source's reduce / length. -/
def listMean (l : List ℚ) : ℚ := l.sum / (l.length : ℚ)

/-- Follows the claim's words for a 10-entry history: INCREASING when the
mean of the last 5 scores exceeds the mean of the 5 preceding scores by
more than 5, DECREASING when lower by more than 5, STABLE otherwise. -/
def trendClaimSpec (scores : List ℚ) : Trend :=
  if listMean (scores.drop 5) > listMean (scores.take 5) + 5 then Trend.INCREASING
  else if listMean (scores.drop 5) < listMean (scores.take 5) - 5 then Trend.DECREASING
  else Trend.STABLE

/- ### Shared-monitor streaming semantics -/

/-- Two concurrent WebSocket sessions. -/
inductive SessionId | A | B
deriving DecidableEq, Repr

/-- The source's server holds one RealTimeRiskMonitor singleton; every
connection's chunk handler calls riskMonitor.checkAlert on it. An event is
a chunk of some session together with the risk score computed for it; the
run threads the single shared history through all events in arrival order
and records which session observed each alert. -/
def runShared : List (SessionId × ℚ) → List ℚ → List (SessionId × AlertInfo)
  | [], _ => []
  | e :: rest, hist =>
    let r := checkAlert hist e.2
    (e.1, r.2) :: runShared rest r.1

/-- The alerts observed by one session across a run. -/
def obsOf (sid : SessionId) (events : List (SessionId × ℚ)) : List AlertInfo :=
  (runShared events []).filterMap fun p => if p.1 = sid then some p.2 else none

/- ### Streaming message handler -/

/-- Client messages of the WebSocket handler. The audioChunk payload is
abstracted to whether voiceEngine.processAudio returns a non-null
analysis for it. -/
inductive ClientMsg | audioChunk (ok : Bool) | endStream
deriving DecidableEq, Repr

/-- Server replies relevant to the session lifecycle. -/
inductive ServerMsg
  | analysisResult (analysisNumber : Nat)
  | errorMsg
  | streamComplete (totalAnalyses : Nat)
deriving DecidableEq, Repr

/-- Per-connection handler state: only the analysis counter; the source
keeps no ended flag for a session. -/
structure ConnState where
  analysisCount : Nat
deriving DecidableEq, Repr

/-- One message step of the source's connection handler: an audio_chunk
with a successful analysis increments the counter and replies with an
analysis_result, a failed analysis replies with an error, and an
end_stream always replies with a stream_complete summary. -/
def handleMsg (s : ConnState) (m : ClientMsg) : ConnState × ServerMsg :=
  match m with
  | ClientMsg.audioChunk ok =>
    if ok then ({ analysisCount := s.analysisCount + 1 },
      ServerMsg.analysisResult (s.analysisCount + 1))
    else (s, ServerMsg.errorMsg)
  | ClientMsg.endStream => (s, ServerMsg.streamComplete s.analysisCount)

/-- Replies produced from a given handler state. -/
def runSessionAux (s : ConnState) : List ClientMsg → List ServerMsg
  | [] => []
  | m :: rest =>
    let r := handleMsg s m
    r.2 :: runSessionAux r.1 rest

/-- Replies of one connection to a message sequence, from a fresh state. -/
def runSession (msgs : List ClientMsg) : List ServerMsg :=
  runSessionAux { analysisCount := 0 } msgs

/- ### Helper lemmas -/

/-- Rounding is monotone on the rationals. -/
lemma round_q_mono {x y : ℚ} (h : x ≤ y) : round x ≤ round y := by
  rw [round_eq, round_eq]
  exact Int.floor_mono (by linarith)

/-- A rational between two integers rounds to a value between them. -/
lemma round_range {m M : ℤ} {x : ℚ} (h1 : (m : ℚ) ≤ x) (h2 : x ≤ (M : ℚ)) :
    (m : ℚ) ≤ (round x : ℚ) ∧ (round x : ℚ) ≤ (M : ℚ) := by
  constructor
  · have h := round_q_mono h1
    rw [round_intCast] at h
    exact_mod_cast h
  · have h := round_q_mono h2
    rw [round_intCast] at h
    exact_mod_cast h

/-- The two-decimal rounding of a quantity in [0, 100] stays in [0, 100]. -/
lemma round_div100_mem {x : ℚ} (h0 : 0 ≤ x) (h1 : x ≤ 100) :
    0 ≤ (round (x * 100) : ℚ) / 100 ∧ (round (x * 100) : ℚ) / 100 ≤ 100 := by
  have hr := round_range (m := 0) (M := 10000) (x := x * 100)
    (by push_cast; linarith) (by push_cast; linarith)
  constructor
  · have h := hr.1
    push_cast at h
    positivity
  · rw [div_le_iff₀ (by norm_num : (0 : ℚ) < 100)]
    have h := hr.2
    push_cast at h
    linarith

/-- The one-decimal percentage rounding of a confidence in [0.6, 0.9] lies
in [60, 90]. -/
lemma round_conf_mem {x : ℚ} (h0 : 0.60 ≤ x) (h1 : x ≤ 0.90) :
    60 ≤ (round (x * 100 * 10) : ℚ) / 10 ∧ (round (x * 100 * 10) : ℚ) / 10 ≤ 90 := by
  have hr := round_range (m := 600) (M := 900) (x := x * 100 * 10)
    (by push_cast; linarith) (by push_cast; linarith)
  constructor
  · rw [le_div_iff₀ (by norm_num : (0 : ℚ) < 10)]
    have h := hr.1
    push_cast at h
    linarith
  · rw [div_le_iff₀ (by norm_num : (0 : ℚ) < 10)]
    have h := hr.2
    push_cast at h
    linarith

/-- The cognitive component lies in [0, 100]. -/
lemma cogScore_mem (i : RiskInputs) : 0 ≤ cogScore i ∧ cogScore i ≤ 100 := by
  unfold cogScore
  refine ⟨le_min ?_ (by norm_num), min_le_right _ _⟩
  split_ifs <;> norm_num

/-- The behavioral component lies in [0, 100]. -/
lemma behScore_mem (i : RiskInputs) : 0 ≤ behScore i ∧ behScore i ≤ 100 := by
  unfold behScore
  refine ⟨le_min ?_ (by norm_num), min_le_right _ _⟩
  split_ifs <;> norm_num

/-- The environmental component lies in [0, 100]. -/
lemma envScore_mem (i : RiskInputs) : 0 ≤ envScore i ∧ envScore i ≤ 100 := by
  unfold envScore
  refine ⟨le_min ?_ (by norm_num), min_le_right _ _⟩
  split_ifs <;> norm_num

/-- The weighted aggregation lies in [0, 100]. -/
lemma rawRisk_mem (i : RiskInputs) : 0 ≤ rawRisk i ∧ rawRisk i ≤ 100 := by
  have hc := cogScore_mem i
  have hb := behScore_mem i
  have he := envScore_mem i
  unfold rawRisk
  constructor <;> nlinarith [hc.1, hc.2, hb.1, hb.2, he.1, he.2]

/-- Every intent multiplier is at least 1. -/
lemma intentMult_ge_one (t : IntentRisk) : 1 ≤ intentMult t := by
  cases t <;> norm_num [intentMult]

/-- The final score lies in [0, 100]. -/
lemma finalScore_mem (i : RiskInputs) : 0 ≤ finalScore i ∧ finalScore i ≤ 100 := by
  have hr := rawRisk_mem i
  have hm := intentMult_ge_one i.intent
  unfold finalScore
  refine ⟨le_min ?_ (by norm_num), min_le_right _ _⟩
  nlinarith [hr.1]

/-- The confidence fraction lies in [0.6, 0.9]. -/
lemma confidenceFrac_mem (i : RiskInputs) :
    0.60 ≤ confidenceFrac i ∧ confidenceFrac i ≤ 0.90 := by
  unfold confidenceFrac
  refine ⟨le_max_right _ _, max_le ?_ (by norm_num)⟩
  split_ifs <;> norm_num

/-- The clamped feature-vector score lies in [0, 100]. -/
lemma calculateScore_some_mem (a : ScoreAnalysis) (r : ℚ) :
    0 ≤ calculateScore (some a) r ∧ calculateScore (some a) r ≤ 100 := by
  unfold calculateScore
  exact ⟨le_min (by norm_num) (le_max_left _ _), min_le_left _ _⟩

/- ### Claim theorems -/

/-- Claim C1: every score-producing function returns a value in [0, 100]
and the confidence lies in [60, 90]: calculateRisk returns a final score
and cognitive, behavioral and environmental component scores each in
[0, 100] and a confidence in [60, 90], and calculateScore returns a value
in [0, 100] (also on the null-analysis fallback, whose random draw lies in
[0, 1)). -/
theorem risk_scores_bounded (i : RiskInputs) (a : ScoreAnalysis) (r : ℚ)
    (hr0 : 0 ≤ r) (hr1 : r < 1) :
    (0 ≤ (calculateRisk i).score ∧ (calculateRisk i).score ≤ 100) ∧
    (0 ≤ (calculateRisk i).cognitive ∧ (calculateRisk i).cognitive ≤ 100) ∧
    (0 ≤ (calculateRisk i).behavioral ∧ (calculateRisk i).behavioral ≤ 100) ∧
    (0 ≤ (calculateRisk i).environmental ∧ (calculateRisk i).environmental ≤ 100) ∧
    (60 ≤ (calculateRisk i).confidence ∧ (calculateRisk i).confidence ≤ 90) ∧
    (0 ≤ calculateScore (some a) r ∧ calculateScore (some a) r ≤ 100) ∧
    (0 ≤ calculateScore none r ∧ calculateScore none r ≤ 100) := by
  have hf := finalScore_mem i
  have hc := cogScore_mem i
  have hb := behScore_mem i
  have he := envScore_mem i
  have hcf := confidenceFrac_mem i
  refine ⟨round_div100_mem hf.1 hf.2, round_div100_mem hc.1 hc.2,
    round_div100_mem hb.1 hb.2, round_div100_mem he.1 he.2,
    round_conf_mem hcf.1 hcf.2, calculateScore_some_mem a r, ?_, ?_⟩
  · show 0 ≤ r * 30
    positivity
  · show r * 30 ≤ 100
    linarith

/-- Concrete inputs used for the claim C1 witness. -/
def w1Inputs : RiskInputs := { pauseStd := 0.2, fillerCount := 3, wpm := 120 }

/-- Concrete analysis used for the claim C1 witness. -/
def w1Analysis : ScoreAnalysis := { features := { rms_mean := 0.15, tempo := 120 } }

/-- Witness for claim C1 at concrete inputs and random draw 1/2. -/
theorem risk_scores_bounded_witness :
    (0 : ℚ) ≤ 1 / 2 ∧ (1 : ℚ) / 2 < 1 ∧
    (60 ≤ (calculateRisk w1Inputs).confidence ∧
      (calculateRisk w1Inputs).confidence ≤ 90) ∧
    (0 ≤ calculateScore (some w1Analysis) (1 / 2) ∧
      calculateScore (some w1Analysis) (1 / 2) ≤ 100) :=
  ⟨by norm_num, by norm_num,
    (risk_scores_bounded w1Inputs w1Analysis (1 / 2) (by norm_num)
      (by norm_num)).2.2.2.2.1,
    (risk_scores_bounded w1Inputs w1Analysis (1 / 2) (by norm_num)
      (by norm_num)).2.2.2.2.2.1⟩

/-- Claim C4: for identical heuristic inputs the final risk score with
intent high (multiplier 1.8) is at least the final risk score with intent
low (multiplier 1.0). -/
theorem intent_multiplier_monotone (i : RiskInputs) :
    (calculateRisk { i with intent := IntentRisk.low }).score ≤
      (calculateRisk { i with intent := IntentRisk.high }).score := by
  have hraw : rawRisk { i with intent := IntentRisk.low }
      = rawRisk { i with intent := IntentRisk.high } := rfl
  have hpos := (rawRisk_mem { i with intent := IntentRisk.low }).1
  have hfs : finalScore { i with intent := IntentRisk.low } ≤
      finalScore { i with intent := IntentRisk.high } := by
    unfold finalScore
    rw [← hraw]
    simp only [intentMult]
    exact min_le_min (by nlinarith [hpos]) le_rfl
  have hround : round (finalScore { i with intent := IntentRisk.low } * 100) ≤
      round (finalScore { i with intent := IntentRisk.high } * 100) :=
    round_q_mono (by linarith)
  show (round (finalScore { i with intent := IntentRisk.low } * 100) : ℚ) / 100 ≤
    (round (finalScore { i with intent := IntentRisk.high } * 100) : ℚ) / 100
  gcongr

/-- Claim C2 counterexample: the buffer 00 00 00 00 contains no data tag,
yet parseWAV does not fail — it decodes the whole buffer from offset 0 and
returns two samples. -/
theorem no_data_tag_still_decodes :
    findData [0, 0, 0, 0] = none ∧ parseWAV [0, 0, 0, 0] = [0, 0] := by
  constructor
  · rfl
  · norm_num [parseWAV, findData, pcmSamples, int16At, List.range_succ]

/-- Claim C2 as amended: decoding produces no typed error. An empty buffer
decodes to an empty sample list and feature extraction then returns none
(so no zero-valued FeatureVector is produced), while a buffer whose data
tag is never found is decoded as PCM from offset 0 and does return
samples. -/
theorem decode_no_typed_errors :
    parseWAV [] = [] ∧
    (∀ body : List ℚ → FeatureVector, extractFeatures body (parseWAV []) = none) ∧
    (∀ bytes : List Nat, findData bytes = none → parseWAV bytes = pcmSamples bytes 0) := by
  refine ⟨rfl, fun body => rfl, fun bytes h => ?_⟩
  unfold parseWAV
  rw [h]

/-- Witness for the amended claim C2 on a concrete tag-less buffer. -/
theorem decode_no_typed_errors_witness :
    findData [1, 2, 3, 4, 5] = none ∧
    parseWAV [1, 2, 3, 4, 5] = pcmSamples [1, 2, 3, 4, 5] 0 :=
  ⟨by decide, decode_no_typed_errors.2.2 [1, 2, 3, 4, 5] (by decide)⟩

/-- The feature vector on which the claim C3 quality-score formula fails:
all five conditions of the claim hold for it. -/
def c3Input : FeatureVector :=
  { rms_mean := 0.1, zcr_mean := 0.3, spec_rolloff_mean := 0.5,
    pitch_stability := 0.6, duration := 5 }

/-- Claim C3: at c3Input all five quality conditions hold (and the returned
booleans report them correctly), yet the returned quality score is 80, not
20 times the number of satisfied checks (100): the source's chained
comparisons award the ZCR points only when zcr_mean is at most 0.15 and
award the duration points unconditionally. -/
theorem quality_score_chained_comparison_bug :
    (0.05 < c3Input.rms_mean ∧
      (0.15 < c3Input.zcr_mean ∧ c3Input.zcr_mean < 0.5) ∧
      0.3 < c3Input.spec_rolloff_mean ∧
      0.5 < c3Input.pitch_stability ∧
      (1 < c3Input.duration ∧ c3Input.duration < 30)) ∧
    (analyzeQuality c3Input).has_voice = true ∧
    (analyzeQuality c3Input).natural_speech = true ∧
    (analyzeQuality c3Input).good_frequency = true ∧
    (analyzeQuality c3Input).consistent_pitch = true ∧
    (analyzeQuality c3Input).natural_duration = true ∧
    (analyzeQuality c3Input).quality_score = 80 ∧
    (analyzeQuality c3Input).quality_score ≠ 20 * 5 := by
  refine ⟨⟨by norm_num [c3Input], ⟨by norm_num [c3Input], by norm_num [c3Input]⟩,
    by norm_num [c3Input], by norm_num [c3Input],
    ⟨by norm_num [c3Input], by norm_num [c3Input]⟩⟩, ?_, ?_, ?_, ?_, ?_, ?_, ?_⟩ <;>
    norm_num [analyzeQuality, c3Input, jsChainedLt]

/-- Claim C7 counterexample: for a 3-sample buffer the window handed to the
recursive transform has length 3, which is not a power of two — no
truncation to the largest power of two below N happens. -/
theorem spectral_window_not_pow2 :
    spectralWindow [0, 0, 0] = ([0, 0, 0] : List ℚ) ∧
    ¬ ∃ k : Nat, (spectralWindow ([0, 0, 0] : List ℚ)).length = 2 ^ k := by
  constructor
  · norm_num [spectralWindow]
  · rintro ⟨k, hk⟩
    have hlen : (spectralWindow ([0, 0, 0] : List ℚ)).length = 3 := by
      norm_num [spectralWindow]
    rw [hlen] at hk
    match k with
    | 0 => simp at hk
    | 1 => simp at hk
    | k + 2 =>
      have h4 : 2 ^ 2 ≤ 2 ^ (k + 2) := Nat.pow_le_pow_right (by norm_num) (by omega)
      omega

/-- Claim C7 as amended: spectral analysis operates on the first
min(2048, N) samples and passes that window to the recursive transform
unchanged — no truncation to a power of two occurs. -/
theorem spectral_window_is_plain_take (audioData : List ℚ) :
    spectralWindow audioData = audioData.take 2048 ∧
    (spectralWindow audioData).length = min 2048 audioData.length := by
  constructor
  · show audioData.take (min 2048 audioData.length) = audioData.take 2048
    rw [← List.take_take, List.take_length]
  · show (audioData.take (min 2048 audioData.length)).length = min 2048 audioData.length
    rw [List.length_take]
    omega

/-- Appending to a history below capacity just appends. -/
lemma pushScore_eq_of_lt {hist : List ℚ} (h : hist.length < 10) (x : ℚ) :
    pushScore hist x = hist ++ [x] := by
  simp only [pushScore]
  rw [if_neg (by simp; omega)]

/-- Appending to a full history appends and drops the oldest entry. -/
lemma pushScore_eq_of_full {hist : List ℚ} (h : hist.length = 10) (x : ℚ) :
    pushScore hist x = (hist ++ [x]).tail := by
  simp only [pushScore]
  rw [if_pos (by simp [h])]

/-- Folding the history update keeps exactly the last 10 entries of the
appended stream, for any start state within capacity. -/
lemma pushScore_foldl_eq (xs : List ℚ) : ∀ init : List ℚ, init.length ≤ 10 →
    List.foldl pushScore init xs
      = (init ++ xs).drop (init.length + xs.length - 10) := by
  induction xs with
  | nil =>
    intro init h
    simp only [List.foldl_nil, List.append_nil, List.length_nil, Nat.add_zero]
    rw [Nat.sub_eq_zero_of_le (by omega), List.drop_zero]
  | cons x t ih =>
    intro init h
    rw [List.foldl_cons]
    by_cases hlen : init.length < 10
    · rw [pushScore_eq_of_lt hlen, ih (init ++ [x]) (by simp; omega)]
      have e1 : (init ++ [x]) ++ t = init ++ x :: t := by simp
      rw [e1]
      have c1 : (init ++ [x]).length + t.length - 10
          = init.length + (x :: t).length - 10 := by simp; omega
      rw [c1]
    · have h10 : init.length = 10 := by omega
      cases init with
      | nil => simp at h10
      | cons a as =>
        have h9 : as.length = 9 := by simp at h10; omega
        rw [pushScore_eq_of_full h10, List.cons_append, List.tail_cons,
          ih (as ++ [x]) (by simp [h9])]
        have e1 : (as ++ [x]) ++ t = as ++ x :: t := by simp
        have e2 : (a :: as) ++ x :: t = a :: (as ++ x :: t) := by simp
        rw [e1, e2]
        have c1 : (as ++ [x]).length + t.length - 10 = t.length := by
          simp [h9]
        have c2 : (a :: as).length + (x :: t).length - 10 = t.length + 1 := by
          simp [h9]
        rw [c1, c2, List.drop_succ_cons]

/-- Claim C5: after any sequence of appends the monitor history holds at
most 10 entries and equals the last 10 appended scores in arrival order
(so eviction removes the oldest entry first and the survivors preserve
FIFO order); after 15 sequential appends it holds exactly 10 entries. -/
theorem session_history_bounded (xs : List ℚ) :
    (List.foldl pushScore [] xs).length ≤ 10 ∧
    List.foldl pushScore [] xs = xs.drop (xs.length - 10) ∧
    (xs.length = 15 → (List.foldl pushScore [] xs).length = 10) := by
  have h := pushScore_foldl_eq xs [] (by simp)
  simp only [List.nil_append, List.length_nil, Nat.zero_add] at h
  refine ⟨?_, h, fun h15 => ?_⟩
  · rw [h, List.length_drop]
    omega
  · rw [h, List.length_drop]
    omega

/-- Concrete 15-score stream for the claim C5 witness. -/
def w5Scores : List ℚ := [1, 2, 3, 4, 5, 6, 7, 8, 9, 10, 11, 12, 13, 14, 15]

/-- Witness for claim C5: 15 sequential appends leave exactly 10 entries. -/
theorem session_history_bounded_witness :
    w5Scores.length = 15 ∧ (List.foldl pushScore [] w5Scores).length = 10 :=
  ⟨rfl, (session_history_bounded w5Scores).2.2 rfl⟩

/-- Claim C6: with fewer than 2 total scores the trend is STABLE; with a
full 10-entry history the trend is the claim's comparison of the mean of
the last 5 scores against the mean of the 5 preceding ones (INCREASING
above +5, DECREASING below -5, STABLE otherwise); and appending the scores
10,10,10,10,10,80,80,80,80,80 in arrival order yields that history, whose
trend is INCREASING. -/
theorem trend_matches_claim (scores : List ℚ) :
    (scores.length < 2 → calculateTrend scores = Trend.STABLE) ∧
    (scores.length = 10 → calculateTrend scores = trendClaimSpec scores) ∧
    List.foldl pushScore [] [10, 10, 10, 10, 10, 80, 80, 80, 80, 80]
      = [10, 10, 10, 10, 10, 80, 80, 80, 80, 80] ∧
    calculateTrend [10, 10, 10, 10, 10, 80, 80, 80, 80, 80] = Trend.INCREASING := by
  refine ⟨fun h => ?_, fun h => ?_, by norm_num [pushScore], by norm_num [calculateTrend]⟩
  · simp only [calculateTrend]
    rw [if_pos h]
  · have h5 : scores.length - 5 = 5 := by omega
    have h0 : scores.length - 10 = 0 := by omega
    have hlen : (scores.take 5).length > 0 := by simp [List.length_take, h]
    simp only [calculateTrend, trendClaimSpec, listMean, h5, h0, List.drop_zero]
    rw [if_neg (show ¬scores.length < 2 by omega), if_pos hlen]

/-- Witness for claim C6 at a singleton history and at the concrete
10-entry history. -/
theorem trend_matches_claim_witness :
    calculateTrend [(5 : ℚ)] = Trend.STABLE ∧
    calculateTrend [10, 10, 10, 10, 10, 80, 80, 80, 80, 80]
      = trendClaimSpec [10, 10, 10, 10, 10, 80, 80, 80, 80, 80] :=
  ⟨(trend_matches_claim [(5 : ℚ)]).1 (by norm_num),
    (trend_matches_claim [10, 10, 10, 10, 10, 80, 80, 80, 80, 80]).2.1 (by norm_num)⟩

/-- Interleaving in which session A streams ten chunks (scores 10 five
times, then 80 five times) before session B's first chunk (score 80). -/
def c8TraceAB : List (SessionId × ℚ) :=
  [(SessionId.A, 10), (SessionId.A, 10), (SessionId.A, 10), (SessionId.A, 10),
   (SessionId.A, 10), (SessionId.A, 80), (SessionId.A, 80), (SessionId.A, 80),
   (SessionId.A, 80), (SessionId.A, 80), (SessionId.B, 80)]

/-- The same stream for session B with session A silent. -/
def c8TraceB : List (SessionId × ℚ) := [(SessionId.B, 80)]

/-- Claim C8: the monitor state is not private to a session. Both traces
contain the identical single B chunk, yet with session A active B observes
trend INCREASING on its first result, while with A silent it observes
STABLE — A's scores leak into B's history and trend through the shared
RealTimeRiskMonitor singleton. -/
theorem shared_monitor_cross_session_leak :
    (obsOf SessionId.B c8TraceAB).map AlertInfo.trend = [Trend.INCREASING] ∧
    (obsOf SessionId.B c8TraceB).map AlertInfo.trend = [Trend.STABLE] ∧
    obsOf SessionId.B c8TraceAB ≠ obsOf SessionId.B c8TraceB := by
  have h1 : obsOf SessionId.B c8TraceAB =
      [{ isAlert := true, severity := Severity.HIGH, trend := Trend.INCREASING }] := by
    norm_num +decide [obsOf, c8TraceAB, runShared, checkAlert, pushScore,
      calculateTrend, List.filterMap_cons]
  have h2 : obsOf SessionId.B c8TraceB =
      [{ isAlert := true, severity := Severity.HIGH, trend := Trend.STABLE }] := by
    norm_num +decide [obsOf, c8TraceB, runShared, checkAlert, pushScore,
      calculateTrend, List.filterMap_cons]
  refine ⟨by rw [h1]; rfl, by rw [h2]; rfl, by rw [h1, h2]; decide⟩

/-- Claim C9: ending a session is not idempotent in the source. A second
end_stream is answered with a second stream_complete summary rather than a
rejection, and an audio_chunk arriving after end_stream is processed into
an analysis_result rather than rejected: the handler keeps no ended flag. -/
theorem end_stream_not_idempotent :
    runSession [ClientMsg.endStream, ClientMsg.endStream]
      = [ServerMsg.streamComplete 0, ServerMsg.streamComplete 0] ∧
    runSession [ClientMsg.endStream, ClientMsg.audioChunk true]
      = [ServerMsg.streamComplete 0, ServerMsg.analysisResult 1] :=
  ⟨rfl, rfl⟩

/-- The artifact score lies in [0, 100]. -/
lemma artifact_score_mem (f : FeatureVector) :
    0 ≤ (detectArtifacts f).artifact_score ∧
    (detectArtifacts f).artifact_score ≤ 100 :=
  ⟨le_min (by norm_num) (by positivity), min_le_left _ _⟩

/-- Claim C10: calculateFraudRisk never returns less than 50: it is 50 for
a null feature record and otherwise adds only nonnegative penalties to the
50 baseline before clamping, so its range is [50, 100]. -/
theorem fraud_risk_at_least_fifty (features : Option FeatureVector) :
    50 ≤ calculateFraudRisk features ∧ calculateFraudRisk features ≤ 100 ∧
    calculateFraudRisk none = 50 := by
  refine ⟨?_, ?_, rfl⟩
  · cases features with
    | none => norm_num [calculateFraudRisk]
    | some f =>
      have ha := artifact_score_mem f
      simp only [calculateFraudRisk]
      refine le_min (by norm_num) (le_trans ?_ (le_max_right 0 _))
      split_ifs <;> linarith [ha.1]
  · cases features with
    | none => norm_num [calculateFraudRisk]
    | some f =>
      simp only [calculateFraudRisk]
      exact min_le_left _ _
